import Mathlib

/-!
Shallow embedding of the deduction and decision engine of the
`cluedo-toolbox-go` repository (package `internal/ai`, file `brain.go`,
together with the strategy file defining `SurgicalStrikeStrategy`,
`_pickUnknownCard`, `sortByValue`, `StringDeque` and the two `Chooser`
implementations, and the catalog loader `internal/config/config.go`).

Modelling conventions:
* Go's tri-state `CardStatus` enum becomes the inductive `CardStatus`;
  `StatusMaybe` is the zero value, so a missing key in a Go
  `map[string]CardStatus` reads as `StatusMaybe`.  The knowledge grid is
  therefore modelled as a total function `String → String → CardStatus`
  whose unset cells are `.maybe`.
* Go string-keyed sets (`map[string]struct{}`) are modelled as
  duplicate-free `List String` in first-occurrence order; the helper
  `mapKeys` in the source sorts the keys, but the only place a key is
  extracted by position (`mapKeys(prunedCards)[0]`) is guarded by the
  set having exactly one element, where order is immaterial.
* Iteration order over Go maps is unspecified; wherever the source
  iterates a map we fix a deterministic order (list order, or the sorted
  key order) and say so in the definition's comment.  None of the
  properties proved below depend on the chosen order except where the
  source's behaviour is itself order-independent.
* The injected `*rand.Rand` is modelled as a stream of naturals
  (`RandS := List Nat`); `rand.Intn n` consumes the head modulo `n`.
  The brain's random source is passed explicitly to the (only)
  operations that consume it, mirroring that no inference code path in
  `brain.go` ever touches `ai.rand`.
-/

namespace Cluedo

/-- `CardStatus` from `brain.go`: `StatusMaybe | StatusYes | StatusNo`
(`StatusMaybe` is the zero value). -/
inductive CardStatus where
  | maybe : CardStatus
  | yes : CardStatus
  | no : CardStatus
deriving DecidableEq

/-- `CardCategory` from `config.go`: `CategorySuspect | CategoryWeapon | CategoryRoom`. -/
inductive CardCategory where
  | suspect : CardCategory
  | weapon : CardCategory
  | room : CardCategory
deriving DecidableEq

/-- `GameConfig` from `config.go`: the three sorted card lists.  The
derived fields `AllCards` and `CardToType` are modelled as functions
below, exactly as `Load` builds them. -/
structure GameConfig where
  suspects : List String
  weapons : List String
  rooms : List String
deriving DecidableEq

/-- `AllCards`: `Load` appends suspects, then weapons, then rooms. -/
def GameConfig.allCards (c : GameConfig) : List String :=
  c.suspects ++ c.weapons ++ c.rooms

/-- `CardToType`: `Load` inserts suspects, then weapons, then rooms into
the map, so a later insertion overwrites an earlier one; the lookup
therefore prefers rooms, then weapons, then suspects. -/
def GameConfig.cardToType (c : GameConfig) (card : String) : Option CardCategory :=
  if card ∈ c.rooms then some .room
  else if card ∈ c.weapons then some .weapon
  else if card ∈ c.suspects then some .suspect
  else none

/-- `CardListForCategory` from `config.go`. -/
def GameConfig.cardListForCategory (c : GameConfig) : CardCategory → List String
  | .suspect => c.suspects
  | .weapon => c.weapons
  | .room => c.rooms

/-- The knowledge grid `map[string]map[string]CardStatus`, as a total
function; unset cells read as `.maybe` (the Go zero value). -/
abbrev Knowledge := String → String → CardStatus

/-- Point update of one grid cell (`ai.knowledge[card][loc] = v`). -/
def updateKnowledge (k : Knowledge) (card loc : String) (v : CardStatus) : Knowledge :=
  fun c' l' => if c' = card ∧ l' = loc then v else k c' l'

/-- `UnresolvedSuggestion` from `brain.go`.  `possibleCards` models the
Go set `map[string]struct{}` as a duplicate-free list. -/
structure Mystery where
  disprover : String
  possibleCards : List String
deriving DecidableEq

/-- `StringDeque` from the strategy file: a bounded FIFO of strings. -/
structure StringDeque where
  elements : List String
  maxSize : Nat
deriving DecidableEq

/-- `NewStringDeque(maxSize)`. -/
def StringDeque.empty (maxSize : Nat) : StringDeque :=
  { elements := [], maxSize := maxSize }

/-- `StringDeque.Push`: append, then drop the front element if the
capacity is exceeded. -/
def StringDeque.push (d : StringDeque) (s : String) : StringDeque :=
  let l := d.elements ++ [s]
  if d.maxSize < l.length then { d with elements := l.drop 1 }
  else { d with elements := l }

/-- `StringDeque.Contains`. -/
def StringDeque.containsStr (d : StringDeque) (s : String) : Bool :=
  decide (s ∈ d.elements)

/-- The two `Chooser` implementations (`RandomChooser`,
`DeterministicChooser`) as a closed enumeration. -/
inductive Chooser where
  | deterministic : Chooser
  | random : Chooser
deriving DecidableEq

/-- A `*rand.Rand` modelled as a stream of naturals; `Intn n` consumes
the head modulo `n`. -/
abbrev RandS := List Nat

/-- `rand.Intn n` for `n > 0`: first stream element modulo `n`, and the
rest of the stream. -/
def randIntn (r : RandS) (n : Nat) : Nat × RandS :=
  match r with
  | [] => (0, [])
  | x :: xs => (x % n, xs)

/-- Insertion into a duplicate-free string list (the model of inserting
into a Go `map[string]struct{}`): keep the first occurrence. -/
def insertSet (acc : List String) (x : String) : List String :=
  if x ∈ acc then acc else acc ++ [x]

/-- The duplicate-free list holding the same members as the input list
(a Go string set built by repeated insertion).  First-occurrence order
is a fixed rendering of the Go map's unspecified iteration order; no
property proved below depends on it. -/
def dedupKeep (l : List String) : List String :=
  l.foldl insertSet []

/-- `sort.Strings` (ascending sort; duplicates kept), used by
`DeterministicChooser.Choose`. -/
def sortStrings (l : List String) : List String :=
  l.insertionSort (· ≤ ·)

/-- `Chooser.Choose(cards)`.  `RandomChooser` draws a uniform index from
its random source; `DeterministicChooser` sorts and takes the first
element.  Both return the empty string on an empty list. -/
def chooseFrom (ch : Chooser) (cards : List String) (r : RandS) : String × RandS :=
  match cards with
  | [] => ("", r)
  | _ =>
    match ch with
    | .deterministic => ((sortStrings cards).headD "", r)
    | .random =>
      let ir := randIntn r cards.length
      (cards.getD ir.1 "", ir.2)

/-- `AdvancedAIBrain`: the agent state from `brain.go`.  The injected
`*rand.Rand` is not stored here but passed explicitly to the operations
that consume it (`_pickUnknownCard` and the random chooser); no
inference code path reads it. -/
structure Brain where
  name : String
  cfg : GameConfig
  players : List String
  hand : List String
  knowledge : Knowledge
  unresolvedSuggestions : List Mystery
  recentSurgicalTargets : StringDeque
  chooser : Chooser

/-- `allLocations` as built inside `_markCardLocation` and
`_deduceCardLocationsByElimination`: all players then `"solution"`. -/
def Brain.allLocations (s : Brain) : List String :=
  s.players ++ ["solution"]

/-- `Setup`: initialize the grid to all-`Maybe` (the Go code allocates
`Maybe` cells for every catalog card; unset cells also read `Maybe`),
with empty hand, no mysteries, and a fresh capacity-3 deque. -/
def setup (cfg : GameConfig) (playerNames : List String) (myName : String)
    (chooser : Chooser) : Brain :=
  { name := myName
    cfg := cfg
    players := playerNames
    hand := []
    knowledge := fun _ _ => .maybe
    unresolvedSuggestions := []
    recentSurgicalTargets := StringDeque.empty 3
    chooser := chooser }

/-- `_markCardLocation(card, location)` from `brain.go`: reject cards
absent from the catalog; no-op when the cell is already `Yes`; otherwise
write `No` to every location in `players ++ ["solution"]` and then `Yes`
at `location`.  Returns the state and the `changed` flag. -/
def markCardLocation (s : Brain) (card location : String) : Brain × Bool :=
  match s.cfg.cardToType card with
  | none => (s, false)
  | some _ =>
    if s.knowledge card location = .yes then (s, false)
    else
      let k1 := s.allLocations.foldl (fun k loc => updateKnowledge k card loc .no) s.knowledge
      let k2 := updateKnowledge k1 card location .yes
      ({ s with knowledge := k2 }, true)

/-- The recomputed candidate set of one mystery: candidates not yet
known `No` at the disprover (the filter of `_pruneAndSolveMysteries`). -/
def prunedOf (s : Brain) (m : Mystery) : List String :=
  m.possibleCards.filter (fun c => decide (s.knowledge c m.disprover ≠ .no))

/-- The loop of `_pruneAndSolveMysteries` over the tracked mysteries,
threading the state (marks fire mid-loop), collecting the surviving
mysteries in order, and accumulating the `changed` flag (the final
length comparison is done by the wrapper, as in the source). -/
def pruneGo (s : Brain) : List Mystery → Brain × List Mystery × Bool
  | [] => (s, [], false)
  | m :: ms =>
    let pruned := prunedOf s m
    let shrank := decide (pruned.length < m.possibleCards.length)
    if pruned.length = 1 then
      let r1 := markCardLocation s (pruned.headD "") m.disprover
      let r2 := pruneGo r1.1 ms
      (r2.1, r2.2.1, shrank || r1.2 || r2.2.2)
    else if 1 < pruned.length then
      let mKept := if shrank then { m with possibleCards := pruned } else m
      let r2 := pruneGo s ms
      (r2.1, mKept :: r2.2.1, shrank || r2.2.2)
    else
      let r2 := pruneGo s ms
      (r2.1, r2.2.1, shrank || r2.2.2)

/-- `_pruneAndSolveMysteries` from `brain.go`: run the per-mystery loop,
then set `changed` additionally when mysteries were dropped, and store
the remaining list. -/
def pruneAndSolveMysteries (s : Brain) : Brain × Bool :=
  let res := pruneGo s s.unresolvedSuggestions
  let changed := res.2.2 || decide (res.2.1.length < s.unresolvedSuggestions.length)
  ({ res.1 with unresolvedSuggestions := res.2.1 }, changed)

/-- Shared shape of the two elimination rules: thread the state through
a step per element, OR-ing the per-step `changed` flags (the Go loops
accumulate `changed` the same way). -/
def foldSteps (step : Brain → α → Brain × Bool) : Brain → List α → Brain × Bool
  | s, [] => (s, false)
  | s, x :: xs =>
    let r1 := step s x
    let r2 := foldSteps step r1.1 xs
    (r2.1, r1.2 || r2.2)

/-- The three categories in the order both elimination drivers and
`ShouldAccuse` iterate them. -/
def categoriesList : List CardCategory := [.suspect, .weapon, .room]

/-- One category of `_deduceSolutionByElimination`: skip solved
categories; if exactly one card of the category is still `Maybe` at
`"solution"`, mark it there. -/
def solStep (s : Brain) (cat : CardCategory) : Brain × Bool :=
  let cards := s.cfg.cardListForCategory cat
  if cards.any (fun c => decide (s.knowledge c "solution" = .yes)) then (s, false)
  else
    let maybes := cards.filter (fun c => decide (s.knowledge c "solution" = .maybe))
    if maybes.length = 1 then markCardLocation s (maybes.headD "") "solution"
    else (s, false)

/-- `_deduceSolutionByElimination` from `brain.go`. -/
def deduceSolutionByElimination (s : Brain) : Brain × Bool :=
  foldSteps solStep s categoriesList

/-- One card of `_deduceCardLocationsByElimination`: if no location is
`Yes` for the card and exactly one location in
`players ++ ["solution"]` is still `Maybe`, mark the card there. -/
def locStep (s : Brain) (card : String) : Brain × Bool :=
  if s.allLocations.any (fun loc => decide (s.knowledge card loc = .yes)) then (s, false)
  else
    let maybes := s.allLocations.filter (fun loc => decide (s.knowledge card loc = .maybe))
    if maybes.length = 1 then markCardLocation s card (maybes.headD "")
    else (s, false)

/-- `_deduceCardLocationsByElimination` from `brain.go`. -/
def deduceCardLocationsByElimination (s : Brain) : Brain × Bool :=
  foldSteps locStep s s.cfg.allCards

/-- One pass of `_runDeductionLoop`'s body: mystery pruning, then
solution-by-elimination, then location-by-elimination, OR-ing the
flags (the Go code runs all three unconditionally each pass). -/
def deductionPass (s : Brain) : Brain × Bool :=
  let r1 := pruneAndSolveMysteries s
  let r2 := deduceSolutionByElimination r1.1
  let r3 := deduceCardLocationsByElimination r2.1
  (r3.1, r1.2 || r2.2 || r3.2)

/-- The fuelled loop of `_runDeductionLoop`: up to `fuel` passes,
stopping early after a pass that reports no change. -/
def loopAux : Nat → Brain → Brain
  | 0, s => s
  | n + 1, s =>
    let res := deductionPass s
    if res.2 then loopAux n res.1 else res.1

/-- `_runDeductionLoop` from `brain.go`: at most 10 passes. -/
def runDeductionLoop (s : Brain) : Brain :=
  loopAux 10 s

/-- `n` unconditional deduction passes (used to state that the loop's
result is reached within a bounded number of passes). -/
def passN : Nat → Brain → Brain
  | 0, s => s
  | n + 1, s => passN n (deductionPass s).1

/-- `events.TurnResolvedEvent`.  The suggestion map
`map[CardCategory]string` is modelled by its list of values (the source
only ever iterates the values; their map order is unspecified, and every
use below is order-independent). -/
structure TurnResolvedEvent where
  suggesterName : String
  suggestion : List String
  disproverName : String
  revealedCard : String

/-- The state updates of `processTurnEvent` for a non-sentinel event
(the part before `_runDeductionLoop` on the non-`"Game Event"` paths):
self-made suggestions learn from the revealed card or, with no
disprover, commit the non-hand suggested cards to `"solution"`;
a third-party disproval records a new mystery. -/
def turnEventUpdates (s : Brain) (e : TurnResolvedEvent) : Brain :=
  if s.name = e.suggesterName then
    if e.disproverName ≠ "" ∧ e.revealedCard ≠ "" then
      (markCardLocation s e.revealedCard e.disproverName).1
    else if e.disproverName = "" then
      e.suggestion.foldl
        (fun t c => if c ∈ t.hand then t else (markCardLocation t c "solution").1) s
    else s
  else if e.disproverName ≠ "" ∧ e.disproverName ≠ s.name then
    { s with unresolvedSuggestions :=
        s.unresolvedSuggestions ++ [⟨e.disproverName, dedupKeep e.suggestion⟩] }
  else s

/-- `processTurnEvent` from `brain.go`: the `"Game Event"` sentinel
applies the direct reveal (when both fields are present) and returns
immediately; every other event applies its updates and then runs the
deduction loop. -/
def processTurnEvent (s : Brain) (e : TurnResolvedEvent) : Brain :=
  if e.suggesterName = "Game Event" then
    if e.disproverName ≠ "" ∧ e.revealedCard ≠ "" then
      (markCardLocation s e.revealedCard e.disproverName).1
    else s
  else
    runDeductionLoop (turnEventUpdates s e)

/-- Modelled from the spec (§4.7): the event processor as the spec
describes it, in which the Deduction Loop runs after the state updates
of *every* event, the direct-reveal sentinel included.  Used only to
compare the code's `processTurnEvent` against the spec's wording. -/
def processTurnEventSpecLoop (s : Brain) (e : TurnResolvedEvent) : Brain :=
  if e.suggesterName = "Game Event" then
    runDeductionLoop
      (if e.disproverName ≠ "" ∧ e.revealedCard ≠ "" then
        (markCardLocation s e.revealedCard e.disproverName).1
      else s)
  else
    runDeductionLoop (turnEventUpdates s e)

/-- The per-category search of `ShouldAccuse`: the first card of the
list that is `Yes` at `"solution"`, or the empty string (the Go code's
zero-value sentinel) when none is. -/
def findCatSolution (s : Brain) : List String → String
  | [] => ""
  | c :: cs => if s.knowledge c "solution" = .yes then c else findCatSolution s cs

/-- `ShouldAccuse` from `brain.go`: iterate suspect, weapon, room; bail
out with `none` as soon as a category has no committed solution card;
otherwise return the full triple (the Go map then has exactly its three
distinct category keys, so the final `len == 3` check passes). -/
def shouldAccuse (s : Brain) : Option (String × String × String) :=
  let a := findCatSolution s (s.cfg.cardListForCategory .suspect)
  if a = "" then none
  else
    let w := findCatSolution s (s.cfg.cardListForCategory .weapon)
    if w = "" then none
    else
      let r := findCatSolution s (s.cfg.cardListForCategory .room)
      if r = "" then none
      else some (a, w, r)

/-- The frequency map of `SurgicalStrikeStrategy.BuildSuggestion`: how
many mysteries list each card (each mystery's candidate set is
duplicate-free, so set iteration increments once per listing mystery). -/
def cardFrequency (ms : List Mystery) (c : String) : Nat :=
  ms.foldl (fun n m => if c ∈ m.possibleCards then n + 1 else n) 0

/-- The key set of the frequency map: every card listed by some mystery
(duplicate-free, in first-occurrence order — a fixed rendering of the
Go map's key set, whose iteration order is unspecified). -/
def candidateCards (ms : List Mystery) : List String :=
  dedupKeep (ms.foldl (fun acc m => acc ++ m.possibleCards) [])

/-- Insertion by strictly-greater frequency: the inserted card goes
after every card of at least its frequency (a stable determinization of
`sortByValue`, whose Go original sorts a randomly-ordered slice with a
non-stable sort and so leaves tie order unspecified). -/
def insertByFreqDesc (freq : String → Nat) (x : String) : List String → List String
  | [] => [x]
  | y :: ys => if freq y < freq x then x :: y :: ys else y :: insertByFreqDesc freq x ys

/-- `sortByValue` from the strategy file: the candidate cards ranked by
descending mystery frequency (deterministic stable rendering; see
`insertByFreqDesc`). -/
def sortByValue (ms : List Mystery) : List String :=
  (candidateCards ms).foldr (insertByFreqDesc (cardFrequency ms)) []

/-- The target-selection prefix of `SurgicalStrikeStrategy.BuildSuggestion`
(through the `ai.chooser.Choose(patientTargets)` call): `none` when no
mystery is tracked or the frequency map is empty; otherwise the chooser
picks from the ranked candidates not in the recent-targets deque,
falling back to the full ranking when all are recent. -/
def surgicalStrikeTarget (s : Brain) (r : RandS) : Option String :=
  if s.unresolvedSuggestions = [] then none
  else
    let sortedTargets := sortByValue s.unresolvedSuggestions
    if sortedTargets = [] then none
    else
      let patientTargets :=
        sortedTargets.filter (fun c => !(s.recentSurgicalTargets.containsStr c))
      let pool := if patientTargets = [] then sortedTargets else patientTargets
      some (chooseFrom s.chooser pool r).1

/-- `_pickUnknownCard(cat)` from the strategy file: draw with the
brain's own random source among the category's non-hand still-`Maybe`
cards; failing that, let the chooser pick among non-hand cards; failing
that, among the whole category list. -/
def pickUnknownCard (s : Brain) (cat : CardCategory) (r : RandS) : String × RandS :=
  let cardList := s.cfg.cardListForCategory cat
  let maybes := cardList.filter
    (fun c => decide (c ∉ s.hand) && decide (s.knowledge c "solution" = .maybe))
  if maybes.length ≠ 0 then
    let ir := randIntn r maybes.length
    (maybes.getD ir.1 "", ir.2)
  else
    let notMyCards := cardList.filter (fun c => decide (c ∉ s.hand))
    if notMyCards.length ≠ 0 then chooseFrom s.chooser notMyCards r
    else chooseFrom s.chooser cardList r

/-! ### Helper lemmas about the knowledge grid and `_markCardLocation` -/

theorem updateKnowledge_cell (k : Knowledge) (card loc : String) (v : CardStatus)
    (c' l' : String) :
    updateKnowledge k card loc v c' l' = if c' = card ∧ l' = loc then v else k c' l' := rfl

theorem foldl_no_cell (locs : List String) (k : Knowledge) (card c' l' : String) :
    (locs.foldl (fun k loc => updateKnowledge k card loc .no) k) c' l' =
      if c' = card ∧ l' ∈ locs then .no else k c' l' := by
  induction locs generalizing k with
  | nil => simp
  | cons a locs ih =>
    simp only [List.foldl_cons, ih, updateKnowledge, List.mem_cons]
    by_cases h1 : c' = card
    · by_cases h2 : l' ∈ locs
      · simp [h1, h2]
      · by_cases h3 : l' = a <;> simp [h1, h2, h3]
    · simp [h1]

theorem markCardLocation_players (s : Brain) (card loc : String) :
    (markCardLocation s card loc).1.players = s.players := by
  simp only [markCardLocation]
  split
  · rfl
  · split <;> rfl

theorem markCardLocation_cfg (s : Brain) (card loc : String) :
    (markCardLocation s card loc).1.cfg = s.cfg := by
  simp only [markCardLocation]
  split
  · rfl
  · split <;> rfl

theorem markCardLocation_name (s : Brain) (card loc : String) :
    (markCardLocation s card loc).1.name = s.name := by
  simp only [markCardLocation]
  split
  · rfl
  · split <;> rfl

theorem markCardLocation_hand (s : Brain) (card loc : String) :
    (markCardLocation s card loc).1.hand = s.hand := by
  simp only [markCardLocation]
  split
  · rfl
  · split <;> rfl

theorem markCardLocation_mysteries (s : Brain) (card loc : String) :
    (markCardLocation s card loc).1.unresolvedSuggestions = s.unresolvedSuggestions := by
  simp only [markCardLocation]
  split
  · rfl
  · split <;> rfl

theorem markCardLocation_recent (s : Brain) (card loc : String) :
    (markCardLocation s card loc).1.recentSurgicalTargets = s.recentSurgicalTargets := by
  simp only [markCardLocation]
  split
  · rfl
  · split <;> rfl

theorem markCardLocation_chooser (s : Brain) (card loc : String) :
    (markCardLocation s card loc).1.chooser = s.chooser := by
  simp only [markCardLocation]
  split
  · rfl
  · split <;> rfl

/-- The write branch of `_markCardLocation`, cell by cell: the marked
cell becomes `Yes`, every other location of the closed set becomes `No`
for that card, and nothing else moves. -/
theorem markCardLocation_knowledge_cell (s : Brain) (card location : String)
    (hv : (s.cfg.cardToType card).isSome = true)
    (hn : s.knowledge card location ≠ .yes) (c' l' : String) :
    (markCardLocation s card location).1.knowledge c' l' =
      if c' = card ∧ l' = location then .yes
      else if c' = card ∧ l' ∈ s.allLocations then .no
      else s.knowledge c' l' := by
  obtain ⟨t, ht⟩ := Option.isSome_iff_exists.mp hv
  simp only [markCardLocation, ht, if_neg hn]
  simp only [updateKnowledge, foldl_no_cell]

/-- The write branch reports a change. -/
theorem markCardLocation_flag_true (s : Brain) (card location : String)
    (hv : (s.cfg.cardToType card).isSome = true)
    (hn : s.knowledge card location ≠ .yes) :
    (markCardLocation s card location).2 = true := by
  obtain ⟨t, ht⟩ := Option.isSome_iff_exists.mp hv
  simp only [markCardLocation, ht, if_neg hn]

/-- A `false` flag from `_markCardLocation` means the state is returned
untouched (invalid card, or cell already `Yes`). -/
theorem markCardLocation_false (s : Brain) (card loc : String)
    (h : (markCardLocation s card loc).2 = false) :
    (markCardLocation s card loc).1 = s := by
  revert h
  simp only [markCardLocation]
  split
  · intro _; rfl
  · split
    · intro _; rfl
    · intro h; cases h

/-- An already-`Yes` cell makes `_markCardLocation` a flagless no-op. -/
theorem markCardLocation_already_yes (s : Brain) (card loc : String)
    (h : s.knowledge card loc = .yes) :
    markCardLocation s card loc = (s, false) := by
  simp only [markCardLocation]
  split
  · rfl
  · rw [if_pos h]

theorem markCardLocation_allLocations (s : Brain) (card loc : String) :
    (markCardLocation s card loc).1.allLocations = s.allLocations := by
  simp only [Brain.allLocations, markCardLocation_players]

/-! ### Concrete fixtures used by witnesses and counterexamples -/

/-- A small two-player catalog: two cards per category. -/
def cfg2 : GameConfig :=
  { suspects := ["A", "B"], weapons := ["W1", "W2"], rooms := ["R1", "R2"] }

/-- A freshly set up agent for `cfg2`, playing as `"P1"` with the
deterministic chooser. -/
def brain0 : Brain := setup cfg2 ["P1", "P2"] "P1" .deterministic

/-- A one-card-per-category catalog whose deduction loop converges at
once by pure elimination. -/
def cfg1 : GameConfig := { suspects := ["A"], weapons := ["W"], rooms := ["R"] }

/-- A freshly set up single-player agent for `cfg1`. -/
def brainT : Brain := setup cfg1 ["P"] "P" .deterministic

/-! ### C2: `mark` establishes the row and is idempotent -/

/-- C2: for a catalog card and any location, after `mark(c, l)` from a
state where the cell was not yet `Yes`, `grid[c][l]` is `Yes` and
`grid[c][l']` is `No` for every other location `l'` of the closed set
`players ∪ {solution}`; calling `mark(c, l)` again finds the cell `Yes`,
changes nothing and reports `false`. -/
theorem c2_mark_establishes_row (s : Brain) (card location : String)
    (hv : (s.cfg.cardToType card).isSome = true)
    (hn : s.knowledge card location ≠ .yes) :
    (markCardLocation s card location).1.knowledge card location = .yes ∧
    (∀ l' ∈ s.players ++ ["solution"], l' ≠ location →
      (markCardLocation s card location).1.knowledge card l' = .no) ∧
    markCardLocation (markCardLocation s card location).1 card location =
      ((markCardLocation s card location).1, false) := by
  refine ⟨?_, ?_, ?_⟩
  · rw [markCardLocation_knowledge_cell s card location hv hn]
    simp
  · intro l' hl' hne
    rw [markCardLocation_knowledge_cell s card location hv hn]
    rw [if_neg (by rintro ⟨-, h⟩; exact hne h), if_pos ⟨rfl, hl'⟩]
  · apply markCardLocation_already_yes
    rw [markCardLocation_knowledge_cell s card location hv hn]
    simp

/-- Witness for C2 at a concrete agent: card `"A"`, location `"P1"`. -/
theorem c2_mark_establishes_row_witness :
    ((brain0.cfg.cardToType "A").isSome = true) ∧
    (brain0.knowledge "A" "P1" ≠ .yes) ∧
    ((markCardLocation brain0 "A" "P1").1.knowledge "A" "P1" = .yes ∧
     (∀ l' ∈ brain0.players ++ ["solution"], l' ≠ "P1" →
       (markCardLocation brain0 "A" "P1").1.knowledge "A" l' = .no) ∧
     markCardLocation (markCardLocation brain0 "A" "P1").1 "A" "P1" =
       ((markCardLocation brain0 "A" "P1").1, false)) :=
  ⟨by decide, by decide, c2_mark_establishes_row brain0 "A" "P1" (by decide) (by decide)⟩

/-! ### C4: marking a card absent from the catalog is a reported no-op -/

/-- C4: `mark` called with a card not in the external catalog returns
`false` and leaves the whole agent state (grid, mysteries, recent
targets, hand, everything) untouched. -/
theorem c4_mark_invalid_card_noop (s : Brain) (card loc : String)
    (h : s.cfg.cardToType card = none) :
    markCardLocation s card loc = (s, false) := by
  simp only [markCardLocation, h]

/-- Witness for C4: `"Z"` is not a card of `cfg2`. -/
theorem c4_mark_invalid_card_noop_witness :
    (brain0.cfg.cardToType "Z" = none) ∧ markCardLocation brain0 "Z" "P1" = (brain0, false) :=
  ⟨by decide, c4_mark_invalid_card_noop brain0 "Z" "P1" (by decide)⟩

/-! ### C3: at most one `Yes` per card is preserved, but `Yes` is revocable -/

/-- For a given card, at most one location of the closed set holds
`Yes`. -/
def atMostOneYes (s : Brain) (card : String) : Prop :=
  ∀ l1 ∈ s.allLocations, ∀ l2 ∈ s.allLocations,
    s.knowledge card l1 = .yes → s.knowledge card l2 = .yes → l1 = l2

instance (s : Brain) (card : String) : Decidable (atMostOneYes s card) := by
  unfold atMostOneYes
  infer_instance

/-- C3 (amended): every `mark` call preserves "at most one location is
`Yes`" for every card.  (The monotonicity half of the original claim is
false: see the counterexample, where a second `mark` at a different
location flips an existing `Yes` back to `No`.) -/
theorem c3_mark_preserves_at_most_one_yes (s : Brain) (c l card : String)
    (h : atMostOneYes s card) :
    atMostOneYes (markCardLocation s c l).1 card := by
  cases hv : s.cfg.cardToType c with
  | none =>
    have : (markCardLocation s c l).1 = s := by simp [markCardLocation, hv]
    rw [this]
    exact h
  | some t =>
    by_cases hn : s.knowledge c l = .yes
    · have : (markCardLocation s c l).1 = s := by
        rw [markCardLocation_already_yes s c l hn]
      rw [this]
      exact h
    · have hv' : (s.cfg.cardToType c).isSome = true := by rw [hv]; rfl
      intro l1 h1 l2 h2 hy1 hy2
      rw [markCardLocation_allLocations] at h1 h2
      rw [markCardLocation_knowledge_cell s c l hv' hn] at hy1 hy2
      by_cases hc : card = c
      · by_cases he1 : l1 = l
        · by_cases he2 : l2 = l
          · rw [he1, he2]
          · rw [if_neg (by rintro ⟨-, h'⟩; exact he2 h'), if_pos ⟨hc, h2⟩] at hy2
            cases hy2
        · rw [if_neg (by rintro ⟨-, h'⟩; exact he1 h'), if_pos ⟨hc, h1⟩] at hy1
          cases hy1
      · rw [if_neg (by rintro ⟨h', -⟩; exact hc h'),
            if_neg (by rintro ⟨h', -⟩; exact hc h')] at hy1
        rw [if_neg (by rintro ⟨h', -⟩; exact hc h'),
            if_neg (by rintro ⟨h', -⟩; exact hc h')] at hy2
        exact h l1 h1 l2 h2 hy1 hy2

/-- Witness for C3 at a concrete agent and card. -/
theorem c3_mark_preserves_at_most_one_yes_witness :
    atMostOneYes brain0 "A" ∧ atMostOneYes (markCardLocation brain0 "A" "P1").1 "A" :=
  ⟨by decide, c3_mark_preserves_at_most_one_yes brain0 "A" "P1" "A" (by decide)⟩

/-- Counterexample to C3 as stated: after `mark("A","P1")` the cell
`("A","P1")` is `Yes`, yet the further call `mark("A","P2")` flips it
back to `No` — a sequence of `mark` calls does revoke certainty. -/
theorem c3_yes_revoked_counterexample :
    (markCardLocation brain0 "A" "P1").1.knowledge "A" "P1" = .yes ∧
    (markCardLocation (markCardLocation brain0 "A" "P1").1 "A" "P2").1.knowledge "A" "P1"
      = .no ∧
    (markCardLocation (markCardLocation brain0 "A" "P1").1 "A" "P2").1.knowledge "A" "P2"
      = .yes := by
  decide

/-! ### C10: direct-reveal events with a missing field change nothing -/

/-- C10: a `"Game Event"` direct reveal whose disprover or revealed-card
field is empty leaves the whole agent state unchanged (`processTurnEvent`
returns the state as is; not even the deduction loop runs). -/
theorem c10_empty_direct_reveal_noop (s : Brain) (e : TurnResolvedEvent)
    (h1 : e.suggesterName = "Game Event")
    (h2 : e.disproverName = "" ∨ e.revealedCard = "") :
    processTurnEvent s e = s := by
  simp only [processTurnEvent, if_pos h1]
  rw [if_neg]
  rintro ⟨hd, hr⟩
  rcases h2 with h | h
  · exact hd h
  · exact hr h

/-- A direct-reveal sentinel event with an empty disprover field. -/
def evEmptyReveal : TurnResolvedEvent :=
  { suggesterName := "Game Event", suggestion := [], disproverName := "", revealedCard := "A" }

/-- Witness for C10 at a concrete agent and event. -/
theorem c10_empty_direct_reveal_noop_witness :
    (evEmptyReveal.suggesterName = "Game Event") ∧
    (evEmptyReveal.disproverName = "" ∨ evEmptyReveal.revealedCard = "") ∧
    processTurnEvent brain0 evEmptyReveal = brain0 :=
  ⟨by decide, Or.inl (by decide),
    c10_empty_direct_reveal_noop brain0 evEmptyReveal (by decide) (Or.inl (by decide))⟩

/-! ### C1: the deduction loop runs after every event — except the sentinel -/

/-- C1 (amended): for every non-sentinel `TurnResolvedEvent` — self-made
suggestions, third-party disprovals, and the no-information paths — the
deduction loop runs after the event's state updates.  (`"Game Event"`
direct reveals are the exception: they return right after the direct
mark, without running the loop; see the counterexample.) -/
theorem c1_loop_runs_after_nonsentinel_events (s : Brain) (e : TurnResolvedEvent)
    (h : e.suggesterName ≠ "Game Event") :
    processTurnEvent s e = runDeductionLoop (turnEventUpdates s e) := by
  simp only [processTurnEvent, if_neg h]

/-- A third-party disproval event observed by `brain0`. -/
def evThirdParty : TurnResolvedEvent :=
  { suggesterName := "P2", suggestion := ["A", "W1", "R1"], disproverName := "P2",
    revealedCard := "" }

/-- Witness for C1 (amended) at a concrete agent and event. -/
theorem c1_loop_runs_after_nonsentinel_events_witness :
    (evThirdParty.suggesterName ≠ "Game Event") ∧
    processTurnEvent brain0 evThirdParty = runDeductionLoop (turnEventUpdates brain0 evThirdParty) :=
  ⟨by decide, c1_loop_runs_after_nonsentinel_events brain0 evThirdParty (by decide)⟩

/-- A `"Game Event"` direct reveal of card `"A"` held by `"P2"`. -/
def evGameReveal : TurnResolvedEvent :=
  { suggesterName := "Game Event", suggestion := [], disproverName := "P2",
    revealedCard := "A" }

/-- Counterexample to C1 as stated: on the `"Game Event"` sentinel the
code returns before `_runDeductionLoop`.  Concretely, after the direct
reveal of `"A"` at `"P2"`, solution-by-elimination would commit `"B"`
to the solution, and the spec-faithful variant (loop after every event)
does so — but `processTurnEvent` leaves `("B", solution)` at `Maybe`. -/
theorem c1_sentinel_skips_loop_counterexample :
    (processTurnEvent brain0 evGameReveal).knowledge "B" "solution" = .maybe ∧
    (processTurnEventSpecLoop brain0 evGameReveal).knowledge "B" "solution" = .yes ∧
    processTurnEvent brain0 evGameReveal ≠ processTurnEventSpecLoop brain0 evGameReveal := by
  have h1 : (processTurnEvent brain0 evGameReveal).knowledge "B" "solution" = .maybe := by
    decide
  have h2 : (processTurnEventSpecLoop brain0 evGameReveal).knowledge "B" "solution" = .yes := by
    decide
  refine ⟨h1, h2, fun h => ?_⟩
  rw [h, h2] at h1
  cases h1

/-! ### C7: accusation gating -/

theorem findCatSolution_spec (s : Brain) (l : List String) (h : findCatSolution s l ≠ "") :
    findCatSolution s l ∈ l ∧ s.knowledge (findCatSolution s l) "solution" = .yes := by
  induction l with
  | nil => simp [findCatSolution] at h
  | cons c cs ih =>
    by_cases hy : s.knowledge c "solution" = .yes
    · simp only [findCatSolution, if_pos hy]
      exact ⟨List.mem_cons_self _ _, hy⟩
    · simp only [findCatSolution, if_neg hy] at h ⊢
      obtain ⟨h1, h2⟩ := ih h
      exact ⟨List.mem_cons_of_mem _ h1, h2⟩

theorem findCatSolution_ne_empty (s : Brain) (l : List String) (hnil : "" ∉ l)
    (h : ∃ c ∈ l, s.knowledge c "solution" = .yes) : findCatSolution s l ≠ "" := by
  induction l with
  | nil => obtain ⟨c, hc, -⟩ := h; cases hc
  | cons c cs ih =>
    by_cases hy : s.knowledge c "solution" = .yes
    · simp only [findCatSolution, if_pos hy]
      intro he
      apply hnil
      rw [← he]
      exact List.mem_cons_self _ _
    · simp only [findCatSolution, if_neg hy]
      apply ih
      · intro h'
        exact hnil (List.mem_cons_of_mem _ h')
      · obtain ⟨d, hd, hdy⟩ := h
        rcases List.mem_cons.mp hd with rfl | hd'
        · exact absurd hdy hy
        · exact ⟨d, hd', hdy⟩

/-- C7: `ShouldAccuse` returns a complete accusation exactly when every
one of the three categories holds a card committed `Yes` at the
solution, and the returned triple consists of such cards, one per
category.  (Well-formedness assumption: no catalog card is the empty
string, which the Go code uses as its not-found sentinel.) -/
theorem c7_should_accuse_iff (s : Brain)
    (h1 : "" ∉ s.cfg.suspects) (h2 : "" ∉ s.cfg.weapons) (h3 : "" ∉ s.cfg.rooms) :
    ((shouldAccuse s).isSome = true ↔
      ((∃ c ∈ s.cfg.suspects, s.knowledge c "solution" = .yes) ∧
       (∃ c ∈ s.cfg.weapons, s.knowledge c "solution" = .yes) ∧
       (∃ c ∈ s.cfg.rooms, s.knowledge c "solution" = .yes))) ∧
    (∀ a w r, shouldAccuse s = some (a, w, r) →
      (a ∈ s.cfg.suspects ∧ s.knowledge a "solution" = .yes) ∧
      (w ∈ s.cfg.weapons ∧ s.knowledge w "solution" = .yes) ∧
      (r ∈ s.cfg.rooms ∧ s.knowledge r "solution" = .yes)) := by
  constructor
  · constructor
    · intro hs
      by_cases hA : findCatSolution s s.cfg.suspects = ""
      · simp [shouldAccuse, GameConfig.cardListForCategory, hA] at hs
      by_cases hW : findCatSolution s s.cfg.weapons = ""
      · simp [shouldAccuse, GameConfig.cardListForCategory, hA, hW] at hs
      by_cases hR : findCatSolution s s.cfg.rooms = ""
      · simp [shouldAccuse, GameConfig.cardListForCategory, hA, hW, hR] at hs
      obtain ⟨hma, hya⟩ := findCatSolution_spec s _ hA
      obtain ⟨hmw, hyw⟩ := findCatSolution_spec s _ hW
      obtain ⟨hmr, hyr⟩ := findCatSolution_spec s _ hR
      exact ⟨⟨_, hma, hya⟩, ⟨_, hmw, hyw⟩, ⟨_, hmr, hyr⟩⟩
    · rintro ⟨e1, e2, e3⟩
      have hA := findCatSolution_ne_empty s _ h1 e1
      have hW := findCatSolution_ne_empty s _ h2 e2
      have hR := findCatSolution_ne_empty s _ h3 e3
      simp [shouldAccuse, GameConfig.cardListForCategory, hA, hW, hR]
  · intro a w r heq
    by_cases hA : findCatSolution s s.cfg.suspects = ""
    · simp [shouldAccuse, GameConfig.cardListForCategory, hA] at heq
    by_cases hW : findCatSolution s s.cfg.weapons = ""
    · simp [shouldAccuse, GameConfig.cardListForCategory, hA, hW] at heq
    by_cases hR : findCatSolution s s.cfg.rooms = ""
    · simp [shouldAccuse, GameConfig.cardListForCategory, hA, hW, hR] at heq
    simp only [shouldAccuse, GameConfig.cardListForCategory, if_neg hA, if_neg hW, if_neg hR,
      Option.some.injEq, Prod.mk.injEq] at heq
    obtain ⟨ha, hw, hr⟩ := heq
    rw [← ha, ← hw, ← hr]
    exact ⟨findCatSolution_spec s _ hA, findCatSolution_spec s _ hW, findCatSolution_spec s _ hR⟩

/-- Witness for C7 at the fully deduced single-card agent (accusation
produced) — the hypotheses and conclusion evaluated concretely. -/
theorem c7_should_accuse_iff_witness :
    ("" ∉ (runDeductionLoop brainT).cfg.suspects) ∧
    ("" ∉ (runDeductionLoop brainT).cfg.weapons) ∧
    ("" ∉ (runDeductionLoop brainT).cfg.rooms) ∧
    (((shouldAccuse (runDeductionLoop brainT)).isSome = true ↔
      ((∃ c ∈ (runDeductionLoop brainT).cfg.suspects,
          (runDeductionLoop brainT).knowledge c "solution" = .yes) ∧
       (∃ c ∈ (runDeductionLoop brainT).cfg.weapons,
          (runDeductionLoop brainT).knowledge c "solution" = .yes) ∧
       (∃ c ∈ (runDeductionLoop brainT).cfg.rooms,
          (runDeductionLoop brainT).knowledge c "solution" = .yes))) ∧
    (∀ a w r, shouldAccuse (runDeductionLoop brainT) = some (a, w, r) →
      (a ∈ (runDeductionLoop brainT).cfg.suspects ∧
        (runDeductionLoop brainT).knowledge a "solution" = .yes) ∧
      (w ∈ (runDeductionLoop brainT).cfg.weapons ∧
        (runDeductionLoop brainT).knowledge w "solution" = .yes) ∧
      (r ∈ (runDeductionLoop brainT).cfg.rooms ∧
        (runDeductionLoop brainT).knowledge r "solution" = .yes))) :=
  ⟨by decide, by decide, by decide,
    c7_should_accuse_iff (runDeductionLoop brainT) (by decide) (by decide) (by decide)⟩

/-! ### C5: mystery pruning -/

theorem filter_eq_self_of_length_eq {α : Type} (p : α → Bool) (l : List α)
    (h : (l.filter p).length = l.length) : l.filter p = l :=
  (List.filter_sublist l).eq_of_length h

/-- The pruned candidate list never grows. -/
theorem prunedOf_length_le (s : Brain) (m : Mystery) :
    (prunedOf s m).length ≤ m.possibleCards.length :=
  List.length_filter_le _ _

theorem pruneGo_rem_length_le (s : Brain) (ms : List Mystery) :
    (pruneGo s ms).2.1.length ≤ ms.length := by
  induction ms generalizing s with
  | nil => simp [pruneGo]
  | cons m ms ih =>
    simp only [pruneGo]
    split
    · exact Nat.le_succ_of_le (ih _)
    · split
      · simpa using ih s
      · exact Nat.le_succ_of_le (ih s)

/-- Every mystery still tracked after a pruning pass has at least two
candidates. -/
theorem pruneGo_survivors_ge2 (s : Brain) (ms : List Mystery) :
    ∀ m' ∈ (pruneGo s ms).2.1, 2 ≤ m'.possibleCards.length := by
  induction ms generalizing s with
  | nil => simp [pruneGo]
  | cons m ms ih =>
    simp only [pruneGo]
    split
    · exact ih _
    · next h1 =>
      split
      · next h2 =>
        intro m' hm'
        rcases List.mem_cons.mp hm' with rfl | hm'
        · split
          · simpa using h2
          · have hle := prunedOf_length_le s m
            omega
        · exact ih s m' hm'
      · exact ih s

/-- A `false` flag together with no dropped mystery means the pruning
recursion did nothing at all. -/
theorem pruneGo_noChange (s : Brain) (ms : List Mystery)
    (hf : (pruneGo s ms).2.2 = false)
    (hl : (pruneGo s ms).2.1.length = ms.length) :
    pruneGo s ms = (s, ms, false) := by
  induction ms generalizing s with
  | nil => simp [pruneGo]
  | cons m ms ih =>
    revert hf hl
    simp only [pruneGo]
    split
    · intro hf hl
      have := pruneGo_rem_length_le (markCardLocation s ((prunedOf s m).headD "") m.disprover).1 ms
      simp only [List.length_cons] at hl
      omega
    · split
      · intro hf hl
        simp only [Bool.or_eq_false_iff, decide_eq_false_iff_not, Nat.not_lt] at hf
        obtain ⟨hsh, hrest⟩ := hf
        have hlen : (prunedOf s m).length = m.possibleCards.length :=
          Nat.le_antisymm (prunedOf_length_le s m) hsh
        have heq : prunedOf s m = m.possibleCards :=
          filter_eq_self_of_length_eq _ _ hlen
        have hrec := ih s hrest (by simpa using hl)
        rw [if_neg (by simp [hlen])]
        rw [hrec]
        simp [heq]
      · intro hf hl
        have := pruneGo_rem_length_le s ms
        simp only [List.length_cons] at hl
        omega

/-- A `false` flag from `_pruneAndSolveMysteries` means the state is
unchanged. -/
theorem pruneAndSolveMysteries_noChange (s : Brain)
    (h : (pruneAndSolveMysteries s).2 = false) :
    (pruneAndSolveMysteries s).1 = s := by
  revert h
  simp only [pruneAndSolveMysteries, Bool.or_eq_false_iff, decide_eq_false_iff_not, Nat.not_lt]
  intro h
  obtain ⟨hf, hl⟩ := h
  have hlen : (pruneGo s s.unresolvedSuggestions).2.1.length = s.unresolvedSuggestions.length :=
    Nat.le_antisymm (pruneGo_rem_length_le s _) hl
  rw [pruneGo_noChange s _ hf hlen]

/-- C5 (amended): in a pruning pass, the head mystery (and inductively
each mystery, at the knowledge state current when it is examined) stays
tracked, unchanged in order but with its candidate list replaced by the
pruned one, exactly when at least two candidates survive; with exactly
one survivor it is dropped and that card is committed at the disprover
via `mark`; with zero survivors it is dropped with nothing committed
(this last case is what breaks the original "removed iff exactly one"
claim); and every mystery still tracked after the pass has at least two
candidates. -/
theorem c5_prune_lifecycle (s : Brain) (m : Mystery) (ms : List Mystery) :
    (2 ≤ (prunedOf s m).length →
      pruneGo s (m :: ms) =
        ((pruneGo s ms).1,
         { m with possibleCards := prunedOf s m } :: (pruneGo s ms).2.1,
         (decide ((prunedOf s m).length < m.possibleCards.length) || (pruneGo s ms).2.2))) ∧
    ((prunedOf s m).length = 1 →
      pruneGo s (m :: ms) =
        ((pruneGo (markCardLocation s ((prunedOf s m).headD "") m.disprover).1 ms).1,
         (pruneGo (markCardLocation s ((prunedOf s m).headD "") m.disprover).1 ms).2.1,
         (decide ((prunedOf s m).length < m.possibleCards.length) ||
          (markCardLocation s ((prunedOf s m).headD "") m.disprover).2 ||
          (pruneGo (markCardLocation s ((prunedOf s m).headD "") m.disprover).1 ms).2.2))) ∧
    ((prunedOf s m).length = 0 →
      pruneGo s (m :: ms) =
        ((pruneGo s ms).1, (pruneGo s ms).2.1,
         (decide ((prunedOf s m).length < m.possibleCards.length) || (pruneGo s ms).2.2))) ∧
    (∀ m' ∈ (pruneGo s (m :: ms)).2.1, 2 ≤ m'.possibleCards.length) := by
  refine ⟨?_, ?_, ?_, pruneGo_survivors_ge2 s (m :: ms)⟩
  · intro h2
    simp only [pruneGo]
    rw [if_neg (by omega), if_pos (by omega)]
    split
    · rfl
    · next hsh =>
      simp only [decide_eq_true_eq, Nat.not_lt] at hsh
      have hlen : (prunedOf s m).length = m.possibleCards.length :=
        Nat.le_antisymm (prunedOf_length_le s m) hsh
      have heq : prunedOf s m = m.possibleCards :=
        filter_eq_self_of_length_eq _ _ hlen
      rw [heq]
  · intro h1
    simp only [pruneGo]
    rw [if_pos h1]
  · intro h0
    simp only [pruneGo]
    rw [if_neg (by omega), if_neg (by omega)]

/-- Witness for C5 at a concrete pass: a two-candidate mystery (nothing
known `No` yet) survives unchanged, in order, with its pruned list. -/
theorem c5_prune_lifecycle_witness :
    pruneGo brain0 [{ disprover := "P2", possibleCards := ["A", "B"] }] =
      ((pruneGo brain0 []).1,
       { disprover := "P2",
         possibleCards :=
           prunedOf brain0 { disprover := "P2", possibleCards := ["A", "B"] } } ::
         (pruneGo brain0 []).2.1,
       (decide ((prunedOf brain0 { disprover := "P2", possibleCards := ["A", "B"] }).length <
           (["A", "B"] : List String).length) || (pruneGo brain0 []).2.2)) :=
  (c5_prune_lifecycle brain0 { disprover := "P2", possibleCards := ["A", "B"] } []).1
    (by decide)

/-- The pruning counterexample agent: card `"A"` already known at
`"P1"` (hence `No` at `"P2"`), with one tracked mystery whose only
candidate is `"A"` at disprover `"P2"`. -/
def brainC5 : Brain :=
  { (markCardLocation brain0 "A" "P1").1 with
      unresolvedSuggestions := [{ disprover := "P2", possibleCards := ["A"] }] }

/-- Counterexample to C5 as stated: this mystery's candidate set shrinks
to zero (not one), yet it is removed from the tracked set, and nothing
is committed `Yes` at its disprover. -/
theorem c5_zero_candidates_dropped_counterexample :
    brainC5.unresolvedSuggestions = [{ disprover := "P2", possibleCards := ["A"] }] ∧
    (prunedOf brainC5 { disprover := "P2", possibleCards := ["A"] }).length = 0 ∧
    (pruneAndSolveMysteries brainC5).1.unresolvedSuggestions = [] ∧
    (pruneAndSolveMysteries brainC5).1.knowledge "A" "P2" = .no := by
  decide

/-! ### C6: the deduction loop terminates within 10 passes and is
idempotent at a fixed point -/

theorem foldSteps_noChange {α : Type} (step : Brain → α → Brain × Bool)
    (hstep : ∀ s x, (step s x).2 = false → (step s x).1 = s)
    (s : Brain) (l : List α) (h : (foldSteps step s l).2 = false) :
    (foldSteps step s l).1 = s := by
  induction l generalizing s with
  | nil => rfl
  | cons x xs ih =>
    revert h
    simp only [foldSteps, Bool.or_eq_false_iff]
    rintro ⟨h1, h2⟩
    have hx := hstep s x h1
    rw [hx] at h2 ⊢
    exact ih s h2

theorem solStep_noChange (s : Brain) (cat : CardCategory)
    (h : (solStep s cat).2 = false) : (solStep s cat).1 = s := by
  revert h
  simp only [solStep]
  split
  · intro _; rfl
  · split
    · intro h; exact markCardLocation_false _ _ _ h
    · intro _; rfl

theorem locStep_noChange (s : Brain) (card : String)
    (h : (locStep s card).2 = false) : (locStep s card).1 = s := by
  revert h
  simp only [locStep]
  split
  · intro _; rfl
  · split
    · intro h; exact markCardLocation_false _ _ _ h
    · intro _; rfl

theorem deduceSolution_noChange (s : Brain)
    (h : (deduceSolutionByElimination s).2 = false) :
    (deduceSolutionByElimination s).1 = s :=
  foldSteps_noChange solStep solStep_noChange s categoriesList h

theorem deduceLocations_noChange (s : Brain)
    (h : (deduceCardLocationsByElimination s).2 = false) :
    (deduceCardLocationsByElimination s).1 = s :=
  foldSteps_noChange locStep locStep_noChange s s.cfg.allCards h

/-- A pass that reports no change leaves the state untouched: each of
the three rules only mutates state through writes it also flags. -/
theorem deductionPass_noChange (s : Brain) (h : (deductionPass s).2 = false) :
    (deductionPass s).1 = s := by
  revert h
  simp only [deductionPass, Bool.or_eq_false_iff]
  rintro ⟨⟨h1, h2⟩, h3⟩
  have e1 : (pruneAndSolveMysteries s).1 = s := pruneAndSolveMysteries_noChange s h1
  rw [e1] at h2 h3
  have e2 : (deduceSolutionByElimination s).1 = s := deduceSolution_noChange s h2
  rw [e2] at h3
  have e3 : (deduceCardLocationsByElimination s).1 = s := deduceLocations_noChange s h3
  rw [e1, e2, e3]

theorem loopAux_of_fixed (n : Nat) (s : Brain) (h : (deductionPass s).2 = false) :
    loopAux (n + 1) s = s := by
  have := deductionPass_noChange s h
  simp [loopAux, h, this]

theorem loopAux_reaches_passN : ∀ (n : Nat) (s : Brain), ∃ k, k ≤ n ∧ loopAux n s = passN k s := by
  intro n
  induction n with
  | zero => exact fun s => ⟨0, Nat.le_refl 0, rfl⟩
  | succ n ih =>
    intro s
    by_cases h : (deductionPass s).2 = true
    · obtain ⟨k, hk, he⟩ := ih (deductionPass s).1
      refine ⟨k + 1, by omega, ?_⟩
      simp only [loopAux, h, if_true]
      rw [he]
      rfl
    · have hf : (deductionPass s).2 = false := by
        revert h
        cases (deductionPass s).2 <;> simp
      refine ⟨1, by omega, ?_⟩
      simp only [loopAux, hf]
      rfl

/-- C6: `_runDeductionLoop` reaches its result in at most 10 passes of
the three-rule body, and when it has converged (the next pass reports no
change) re-running the whole loop changes no state. -/
theorem c6_loop_terminates_and_idempotent (s : Brain)
    (h : (deductionPass (runDeductionLoop s)).2 = false) :
    (∃ k, k ≤ 10 ∧ runDeductionLoop s = passN k s) ∧
    runDeductionLoop (runDeductionLoop s) = runDeductionLoop s := by
  constructor
  · exact loopAux_reaches_passN 10 s
  · exact loopAux_of_fixed 9 (runDeductionLoop s) h

/-- Witness for C6 at a concrete agent whose loop converges (pure
elimination commits each single-card category at once). -/
theorem c6_loop_terminates_and_idempotent_witness :
    (deductionPass (runDeductionLoop brainT)).2 = false ∧
    ((∃ k, k ≤ 10 ∧ runDeductionLoop brainT = passN k brainT) ∧
     runDeductionLoop (runDeductionLoop brainT) = runDeductionLoop brainT) :=
  ⟨by decide, c6_loop_terminates_and_idempotent brainT (by decide)⟩

/-! ### C8: surgical-strike target selection -/

theorem sortStrings_perm (l : List String) : List.Perm (sortStrings l) l :=
  List.perm_insertionSort _ _

theorem sortStrings_sorted (l : List String) : List.Sorted (· ≤ ·) (sortStrings l) :=
  List.sorted_insertionSort _ _

/-- `DeterministicChooser.Choose` returns the alphabetically least
element of a nonempty candidate list. -/
theorem chooseFrom_det_min (cards : List String) (r : RandS) (h : cards ≠ []) :
    (chooseFrom .deterministic cards r).1 ∈ cards ∧
    ∀ a ∈ cards, (chooseFrom .deterministic cards r).1 ≤ a := by
  match cards with
  | [] => exact absurd rfl h
  | c :: cs =>
    cases hs : sortStrings (c :: cs) with
    | nil =>
      have := (sortStrings_perm (c :: cs)).length_eq
      rw [hs] at this
      simp at this
    | cons y ys =>
      have hmem : (chooseFrom .deterministic (c :: cs) r).1 = y := by
        simp [chooseFrom, hs]
      rw [hmem]
      have hy : y ∈ sortStrings (c :: cs) := by
        rw [hs]
        exact List.mem_cons_self _ _
      have hsort := sortStrings_sorted (c :: cs)
      rw [hs] at hsort
      constructor
      · exact (sortStrings_perm (c :: cs)).mem_iff.mp hy
      · intro a ha
        have ha' : a ∈ y :: ys := by
          rw [← hs]
          exact (sortStrings_perm (c :: cs)).mem_iff.mpr ha
        rcases List.mem_cons.mp ha' with rfl | ha'
        · exact le_refl a
        · exact (List.sorted_cons.mp hsort).1 a ha'

/-- C8 (amended): with the deterministic chooser and a tracked mystery,
the chosen target is the *alphabetically least* candidate not in the
recent-targets buffer (falling back to the alphabetically least of all
candidates when every candidate is recent) — the frequency ranking
computed by `sortByValue` only shapes the pool handed to the Chooser,
and the Chooser, not the ranking, makes the final pick. -/
theorem c8_target_is_chooser_pick (s : Brain) (r : RandS)
    (hm : s.unresolvedSuggestions ≠ [])
    (hc : sortByValue s.unresolvedSuggestions ≠ [])
    (hdet : s.chooser = .deterministic) :
    (((sortByValue s.unresolvedSuggestions).filter
        (fun c => !(s.recentSurgicalTargets.containsStr c))) ≠ [] →
      ∃ t, surgicalStrikeTarget s r = some t ∧
        t ∈ (sortByValue s.unresolvedSuggestions).filter
            (fun c => !(s.recentSurgicalTargets.containsStr c)) ∧
        ∀ a ∈ (sortByValue s.unresolvedSuggestions).filter
            (fun c => !(s.recentSurgicalTargets.containsStr c)), t ≤ a) ∧
    (((sortByValue s.unresolvedSuggestions).filter
        (fun c => !(s.recentSurgicalTargets.containsStr c))) = [] →
      ∃ t, surgicalStrikeTarget s r = some t ∧
        t ∈ sortByValue s.unresolvedSuggestions ∧
        ∀ a ∈ sortByValue s.unresolvedSuggestions, t ≤ a) := by
  constructor
  · intro hp
    obtain ⟨h1, h2⟩ := chooseFrom_det_min
      ((sortByValue s.unresolvedSuggestions).filter
        (fun c => !(s.recentSurgicalTargets.containsStr c))) r hp
    refine ⟨(chooseFrom .deterministic
      ((sortByValue s.unresolvedSuggestions).filter
        (fun c => !(s.recentSurgicalTargets.containsStr c))) r).1, ?_, h1, h2⟩
    simp only [surgicalStrikeTarget, if_neg hm, if_neg hc, if_neg hp, hdet]
  · intro hp
    obtain ⟨h1, h2⟩ := chooseFrom_det_min (sortByValue s.unresolvedSuggestions) r hc
    refine ⟨(chooseFrom .deterministic (sortByValue s.unresolvedSuggestions) r).1, ?_, h1, h2⟩
    simp only [surgicalStrikeTarget, if_neg hm, if_neg hc, if_pos hp, hdet]

/-- The surgical-strike counterexample agent: two mysteries, so `"B"`
has frequency 2 while `"A"` and `"R1"` have frequency 1; nothing is in
the recent-targets buffer. -/
def brainC8 : Brain :=
  { brain0 with
      unresolvedSuggestions :=
        [{ disprover := "P2", possibleCards := ["A", "B"] },
         { disprover := "P2", possibleCards := ["B", "R1"] }] }

/-- Counterexample to C8 as stated: the highest-frequency non-recent
candidate is `"B"` (frequency 2, head of the ranking, buffer empty),
yet the chosen target is `"A"` — `ai.chooser.Choose(patientTargets)`
picks alphabetically, ignoring the frequency ranking. -/
theorem c8_frequency_top_not_chosen_counterexample :
    cardFrequency brainC8.unresolvedSuggestions "B" = 2 ∧
    cardFrequency brainC8.unresolvedSuggestions "A" = 1 ∧
    cardFrequency brainC8.unresolvedSuggestions "R1" = 1 ∧
    brainC8.recentSurgicalTargets.elements = [] ∧
    sortByValue brainC8.unresolvedSuggestions = ["B", "R1", "A"] ∧
    surgicalStrikeTarget brainC8 [] = some "A" := by
  have hBA : ¬(("B" : String) ≤ "A") := by
    rw [String.le_iff_toList_le]
    decide
  have hRA : ¬(("R1" : String) ≤ "A") := by
    rw [String.le_iff_toList_le]
    decide
  have hBR : ("B" : String) ≤ "R1" := by
    rw [String.le_iff_toList_le]
    decide
  refine ⟨by decide, by decide, by decide, by decide, by decide, ?_⟩
  have hsv : sortByValue brainC8.unresolvedSuggestions = ["B", "R1", "A"] := by decide
  have hflt : (["B", "R1", "A"].filter
      (fun c => !(brainC8.recentSurgicalTargets.containsStr c))) = ["B", "R1", "A"] := by
    decide
  simp only [surgicalStrikeTarget, hsv, hflt]
  rw [if_neg (by decide), if_neg (by decide), if_neg (by decide)]
  have hch : brainC8.chooser = Chooser.deterministic := by decide
  rw [hch]
  simp only [chooseFrom, sortStrings, List.insertionSort, List.orderedInsert,
    if_neg hRA, if_neg hBA, if_pos hBR, List.headD]

/-- Witness for C8 (amended) at the same concrete agent. -/
theorem c8_target_is_chooser_pick_witness :
    (brainC8.unresolvedSuggestions ≠ []) ∧
    (sortByValue brainC8.unresolvedSuggestions ≠ []) ∧
    (brainC8.chooser = .deterministic) ∧
    ((((sortByValue brainC8.unresolvedSuggestions).filter
        (fun c => !(brainC8.recentSurgicalTargets.containsStr c))) ≠ [] →
      ∃ t, surgicalStrikeTarget brainC8 [] = some t ∧
        t ∈ (sortByValue brainC8.unresolvedSuggestions).filter
            (fun c => !(brainC8.recentSurgicalTargets.containsStr c)) ∧
        ∀ a ∈ (sortByValue brainC8.unresolvedSuggestions).filter
            (fun c => !(brainC8.recentSurgicalTargets.containsStr c)), t ≤ a) ∧
     (((sortByValue brainC8.unresolvedSuggestions).filter
        (fun c => !(brainC8.recentSurgicalTargets.containsStr c))) = [] →
      ∃ t, surgicalStrikeTarget brainC8 [] = some t ∧
        t ∈ sortByValue brainC8.unresolvedSuggestions ∧
        ∀ a ∈ sortByValue brainC8.unresolvedSuggestions, t ≤ a)) :=
  ⟨by decide, by decide, by decide,
    c8_target_is_chooser_pick brainC8 [] (by decide) (by decide) (by decide)⟩

/-! ### C9: the chooser is not the only source of non-determinism -/

theorem randIntn_lt (r : RandS) (n : Nat) (h : n ≠ 0) : (randIntn r n).1 < n := by
  cases r with
  | nil => exact Nat.pos_of_ne_zero h
  | cons x xs => exact Nat.mod_lt _ (Nat.pos_of_ne_zero h)

theorem getD_mem_of_lt (l : List String) (i : Nat) (h : i < l.length) :
    l.getD i "" ∈ l := by
  rw [List.getD_eq_getElem l "" h]
  exact List.getElem_mem h

/-- Either chooser returns an element of a nonempty candidate list. -/
theorem chooseFrom_mem (ch : Chooser) (cards : List String) (r : RandS)
    (h : cards ≠ []) : (chooseFrom ch cards r).1 ∈ cards := by
  match cards with
  | [] => exact absurd rfl h
  | c :: cs =>
    cases ch with
    | deterministic => exact (chooseFrom_det_min (c :: cs) r h).1
    | random =>
      simp only [chooseFrom]
      apply getD_mem_of_lt
      exact randIntn_lt r (c :: cs).length (by simp)

/-- C9 (amended): `_pickUnknownCard` always answers from the
state-determined candidate pool — the category's non-hand still-`Maybe`
cards when any exist (drawn with the agent's own random source, not the
Chooser), else the non-hand cards, else the whole category list.  Which
pool element comes back depends on the injected random stream or the
chooser; the counterexample shows two streams giving different picks
with the chooser fixed. -/
theorem c9_pick_confined_to_pool (s : Brain) (cat : CardCategory) (r : RandS) :
    (((s.cfg.cardListForCategory cat).filter
        (fun c => decide (c ∉ s.hand) && decide (s.knowledge c "solution" = .maybe))) ≠ [] →
      (pickUnknownCard s cat r).1 ∈
        (s.cfg.cardListForCategory cat).filter
          (fun c => decide (c ∉ s.hand) && decide (s.knowledge c "solution" = .maybe))) ∧
    (((s.cfg.cardListForCategory cat).filter
        (fun c => decide (c ∉ s.hand) && decide (s.knowledge c "solution" = .maybe))) = [] →
      ((s.cfg.cardListForCategory cat).filter (fun c => decide (c ∉ s.hand))) ≠ [] →
      (pickUnknownCard s cat r).1 ∈
        (s.cfg.cardListForCategory cat).filter (fun c => decide (c ∉ s.hand))) ∧
    (((s.cfg.cardListForCategory cat).filter
        (fun c => decide (c ∉ s.hand) && decide (s.knowledge c "solution" = .maybe))) = [] →
      ((s.cfg.cardListForCategory cat).filter (fun c => decide (c ∉ s.hand))) = [] →
      (s.cfg.cardListForCategory cat) ≠ [] →
      (pickUnknownCard s cat r).1 ∈ s.cfg.cardListForCategory cat) := by
  refine ⟨?_, ?_, ?_⟩
  · intro h1
    have hl : ((s.cfg.cardListForCategory cat).filter
        (fun c => decide (c ∉ s.hand) && decide (s.knowledge c "solution" = .maybe))).length ≠ 0 := by
      simpa [List.length_eq_zero] using h1
    simp only [pickUnknownCard, if_pos hl]
    apply getD_mem_of_lt
    exact randIntn_lt r _ hl
  · intro h1 h2
    have hl : ¬(((s.cfg.cardListForCategory cat).filter
        (fun c => decide (c ∉ s.hand) && decide (s.knowledge c "solution" = .maybe))).length ≠ 0) := by
      rw [h1]
      simp
    have hl2 : ((s.cfg.cardListForCategory cat).filter
        (fun c => decide (c ∉ s.hand))).length ≠ 0 := by
      simpa [List.length_eq_zero] using h2
    simp only [pickUnknownCard, if_neg hl, if_pos hl2]
    exact chooseFrom_mem s.chooser _ r h2
  · intro h1 h2 h3
    have hl : ¬(((s.cfg.cardListForCategory cat).filter
        (fun c => decide (c ∉ s.hand) && decide (s.knowledge c "solution" = .maybe))).length ≠ 0) := by
      rw [h1]
      simp
    have hl2 : ¬(((s.cfg.cardListForCategory cat).filter
        (fun c => decide (c ∉ s.hand))).length ≠ 0) := by
      rw [h2]
      simp
    simp only [pickUnknownCard, if_neg hl, if_neg hl2]
    exact chooseFrom_mem s.chooser _ r h3

/-- Counterexample to C9 as stated: the same agent state (the same —
empty — event history) with the chooser held fixed at the deterministic
chooser returns different suggestion cards for different injected
random streams, because `_pickUnknownCard` draws with `ai.rand.Intn`. -/
theorem c9_rand_stream_changes_pick_counterexample :
    brain0.chooser = .deterministic ∧
    (pickUnknownCard brain0 .suspect [0]).1 = "A" ∧
    (pickUnknownCard brain0 .suspect [1]).1 = "B" := by
  decide

/-- Witness for C9 (amended) at a concrete agent and category. -/
theorem c9_pick_confined_to_pool_witness :
    ((cfg2.cardListForCategory .suspect).filter
        (fun c => decide (c ∉ brain0.hand) && decide (brain0.knowledge c "solution" = .maybe))) ≠ [] ∧
    (pickUnknownCard brain0 .suspect [0]).1 ∈
      (cfg2.cardListForCategory .suspect).filter
        (fun c => decide (c ∉ brain0.hand) && decide (brain0.knowledge c "solution" = .maybe)) :=
  ⟨by decide, (c9_pick_confined_to_pool brain0 .suspect [0]).1 (by decide)⟩

end Cluedo
